import Mathlib

/-!
Verification of the tagent authorization core: a shallow embedding of the
ACL data model (`models.rs`), the glob matcher configuration and decision
engine (`db.rs`), the token-identity extraction (`auth.rs`), and the
relevant handler compositions (`handlers.rs`), together with theorems
settling the specified properties.

The database table is modelled as a `List DbAcl` (rows in load order);
diesel filters become `List.filter`, and the fallible load is an
`Except DieselError (List DbAcl)`.
-/

deriving instance DecidableEq for Except

namespace Tagent

/-- models.rs: the `AclAction` enumeration with variants `Read`, `Execute`, `Write`. -/
inductive AclAction where
  | Read
  | Execute
  | Write
deriving DecidableEq

/-- models.rs: `impl fmt::Display for AclAction` (the strings written by `to_string`). -/
def AclAction.to_string : AclAction → String
  | .Read => "Read"
  | .Execute => "Execute"
  | .Write => "Write"

/-- models.rs: the `AclDecision` enumeration with variants `Allow`, `Deny`. -/
inductive AclDecision where
  | Allow
  | Deny
deriving DecidableEq

/-- models.rs: `impl fmt::Display for AclDecision`. -/
def AclDecision.to_string : AclDecision → String
  | .Allow => "Allow"
  | .Deny => "Deny"

/-- models.rs: `DbAcl`, a database record retrieved from sqlite; `action` and
`decision` are stored as strings, exactly as in the Rust struct. -/
structure DbAcl where
  id : Int
  subject : String
  action : String
  path : String
  user : String
  create_by : String
  create_time : String
  decision : String
deriving DecidableEq

/-- models.rs: `DbAcl::is_leq_action`: whether the ACL's action is less than
or equal to the given action string in the order Read < Execute < Write.
Any `action` field other than "Read"/"Execute" falls into the final branch,
as in the Rust `else`. -/
def DbAcl.is_leq_action (acl : DbAcl) (action : String) : Bool :=
  if acl.action == "Read" then
    -- Read is less than every action
    true
  else if acl.action == "Execute" then
    (action == "Execute") || (action == "Write")
  else
    -- acl action is Write, so only Write is leq
    action == "Write"

/-- glob crate / representations.rs: an invalid glob pattern error. -/
structure PatternError where
  msg : String
deriving DecidableEq

/-- Modelled from the spec: a token of a glob pattern (§4.C Glob Matcher).
The vendored source of the external glob crate is not under src/; the spec
describes the matcher as: `*` matches any run of characters including `/`,
`?` matches a single character, matching is case-insensitive, and an
ill-formed pattern yields a `PatternError`. -/
inductive GlobToken where
  | lit (c : Char)
  | anyChar
  | anySeq
deriving DecidableEq

/-- ASCII lower-casing of one character, as in Rust's `to_ascii_lowercase`:
characters in `A`..`Z` (code points 65..90) are shifted by 32, all others
are unchanged. -/
def ascii_lower (c : Char) : Char :=
  if 65 ≤ c.toNat ∧ c.toNat ≤ 90 then Char.ofNat (c.toNat + 32) else c

/-- Case-insensitive character comparison, as the glob crate's `chars_eq`
with `case_sensitive = false`: ASCII letters compare ignoring case, all
other characters compare exactly. -/
def chars_eq (a b : Char) : Bool :=
  ascii_lower a == ascii_lower b

/-- Modelled from the spec: parsing a glob pattern into tokens (§4.C).
`*` and `?` are the wildcards the spec defines; every other ordinary
character matches literally.  A bracket `[` opens a character-class form
that the spec's matcher description does not define; such patterns are
conservatively ill-formed (in particular an unclosed `[` is ill-formed in
any glob implementation), giving the spec's `PatternError`. -/
def parseGlob : List Char → Except PatternError (List GlobToken)
  | [] => .ok []
  | c :: rest =>
    if c = '*' then (parseGlob rest).map (fun ts => GlobToken.anySeq :: ts)
    else if c = '?' then (parseGlob rest).map (fun ts => GlobToken.anyChar :: ts)
    else if c = '[' then .error { msg := "invalid range pattern" }
    else (parseGlob rest).map (fun ts => GlobToken.lit c :: ts)

/-- The backtracking behaviour of a `*` wildcard: try to match the rest of
the pattern against every suffix of the candidate, shortest first.  (The
glob crate's `AnySequence` loop: try the empty match, then consume one
character at a time and retry.) -/
def globSeq (matchRest : List Char → Bool) : List Char → Bool
  | [] => matchRest []
  | c :: s => matchRest (c :: s) || globSeq matchRest s

/-- Modelled from the spec: matching a token list against a candidate string
(§4.C).  With the options passed in db.rs (`require_literal_separator =
false`, `require_literal_leading_dot = false`) neither `/` nor a leading `.`
is special, so `anySeq` may absorb any run of characters and `anyChar` any
single character; literals compare case-insensitively. -/
def globMatchTokens : List GlobToken → List Char → Bool
  | [], s => s.isEmpty
  | .anySeq :: ts, s => globSeq (globMatchTokens ts) s
  | .anyChar :: ts, s =>
    match s with
    | [] => false
    | _ :: s => globMatchTokens ts s
  | .lit c :: ts, s =>
    match s with
    | [] => false
    | d :: s => chars_eq d c && globMatchTokens ts s

/-- db.rs: `check_acl_glob_for_match`: compile the ACL field as a glob
pattern (propagating `PatternError`) and match the candidate field against
it with `case_sensitive = false`, `require_literal_separator = false`,
`require_literal_leading_dot = false`. -/
def check_acl_glob_for_match (acl_field field : String) : Except PatternError Bool :=
  match parseGlob acl_field.data with
  | .error e => .error e
  | .ok ts => .ok (globMatchTokens ts field.data)

/-- db.rs: `check_acl_for_match`: whether a DB ACL matches the query
`(sub, usr, pth, act)`.  Subject must match exactly; user and path match
exactly or by glob; the action comparison depends on the ACL's decision
("Allow": match unless the ACL action is leq the query action; anything
else is treated as "Deny": match only if the ACL action is leq). -/
def check_acl_for_match (sub usr pth act : String) (acl : DbAcl) :
    Except PatternError Bool :=
  if sub != acl.subject then .ok false
  else
    match (if usr != acl.user then check_acl_glob_for_match acl.user usr else .ok true) with
    | .error e => .error e
    | .ok false => .ok false
    | .ok true =>
      match (if pth != acl.path then check_acl_glob_for_match acl.path pth else .ok true) with
      | .error e => .error e
      | .ok false => .ok false
      | .ok true =>
        if acl.action != act then
          if acl.decision == "Allow" then
            if acl.is_leq_action act then .ok false else .ok true
          else
            if !(acl.is_leq_action act) then .ok false else .ok true
        else .ok true

/-- An opaque storage-layer error (diesel::result::Error). -/
structure DieselError where
  msg : String
deriving DecidableEq

/-- representations.rs: `AuthCheckError`, the error union produced during
auth checks: a storage error or a glob pattern error. -/
inductive AuthCheckError where
  | Db (e : DieselError)
  | Glb (e : PatternError)
deriving DecidableEq

/-- representations.rs: `AuthAnswer`, the decision payload. -/
structure AuthAnswer where
  allowed : Bool
  acl_id : Option Int
deriving DecidableEq

/-- db.rs: the body of the `for acl in ... { if check_acl_for_match(..)? {
return Ok(..) } }` loops in `is_authz_db`: scan a list of ACLs, propagating
the first match error, and return the first ACL whose match predicate
evaluates to true. -/
def firstMatch (sub usr pth act : String) : List DbAcl → Except PatternError (Option DbAcl)
  | [] => .ok none
  | acl :: rest =>
    match check_acl_for_match sub usr pth act acl with
    | .error e => .error e
    | .ok true => .ok (some acl)
    | .ok false => firstMatch sub usr pth act rest

/-- db.rs: `is_authz_db`: check whether a subject is authorized for an
action on a path as a user.  First load the ACLs with exact subject match
and decision "Deny" and return a negative answer on the first match; then
load those with decision "Allow" and return a positive answer on the first
match; otherwise default-deny.  A failed load or an invalid glob pattern is
propagated as an `AuthCheckError`. -/
def is_authz_db (db : Except DieselError (List DbAcl)) (sub usr pth : String)
    (act : AclAction) : Except AuthCheckError AuthAnswer :=
  match db with
  | .error e => .error (AuthCheckError.Db e)
  | .ok rows =>
    let deny_acls := rows.filter
      (fun a => a.subject == sub && a.decision == AclDecision.Deny.to_string)
    match firstMatch sub usr pth act.to_string deny_acls with
    | .error e => .error (AuthCheckError.Glb e)
    | .ok (some acl) => .ok { allowed := false, acl_id := some acl.id }
    | .ok none =>
      let allow_acls := rows.filter
        (fun a => a.subject == sub && a.decision == AclDecision.Allow.to_string)
      match firstMatch sub usr pth act.to_string allow_acls with
      | .error e => .error (AuthCheckError.Glb e)
      | .ok (some acl) => .ok { allowed := true, acl_id := some acl.id }
      | .ok none => .ok { allowed := false, acl_id := none }

/-! ### ACL store operations (db.rs) -/

/-- Rust's `str::starts_with('/')`: whether the first character is `/`. -/
def starts_with_slash (s : String) : Bool :=
  match s.data with
  | [] => false
  | c :: _ => c == '/'

/-- db.rs: the path normalization inside `save_acl`: every path must start
with a slash; one is prepended when absent. -/
def normalize_path (path : String) : String :=
  if starts_with_slash path then path else "/" ++ path

/-- models.rs: `NewAclJson`, a user-supplied JSON object describing a new
ACL; `action` and `decision` are parsed against their closed enumerations
by serde. -/
structure NewAclJson where
  subject : String
  action : AclAction
  decision : AclDecision
  path : String
  user : String
deriving DecidableEq

/-- db.rs: `save_acl`: normalize the submitted path to begin with `/` and
insert a new row.  The id assigned by sqlite and the `iso8601(now)`
timestamp are passed explicitly (`new_id`, `now`). -/
def save_acl (db : List DbAcl) (new_id : Int) (now : String) (subject : String)
    (action : AclAction) (path user : String) (decision : AclDecision)
    (create_by : String) : List DbAcl :=
  db ++ [{ id := new_id, subject := subject, action := action.to_string,
           path := normalize_path path, user := user, create_by := create_by,
           create_time := now, decision := decision.to_string }]

/-- db.rs: `retrieve_acl_by_id`: `acls.find(id).first(conn)`; `none` models
the diesel `NotFound` error. -/
def retrieve_acl_by_id (db : List DbAcl) (id : Int) : Option DbAcl :=
  db.find? (fun r => r.id == id)

/-- db.rs: `delete_acl_from_db_by_id`: delete the rows with the given id,
returning the number of affected rows together with the remaining table. -/
def delete_acl_from_db_by_id (db : List DbAcl) (acl_id : Int) : Nat × List DbAcl :=
  (db.countP (fun r => r.id == acl_id), db.filter (fun r => !(r.id == acl_id)))

/-- db.rs: `update_acl_in_db_by_id`: on every row with the given id, set
`action`, `subject`, `path`, `user`, `decision` from the submitted
`NewAclJson` and `create_by` from the caller's subject; `id` and
`create_time` are not in the `set` clause.  Returns the affected-row count
and the new table. -/
def update_acl_in_db_by_id (db : List DbAcl) (acl_id : Int) (new_acl : NewAclJson)
    (new_subject : String) : Nat × List DbAcl :=
  (db.countP (fun r => r.id == acl_id),
   db.map (fun r =>
     if r.id == acl_id then
       { r with action := new_acl.action.to_string, subject := new_acl.subject,
                path := new_acl.path, user := new_acl.user,
                decision := new_acl.decision.to_string, create_by := new_subject }
     else r))

/-! ### Spec-side decision engine (§4.D), for the refinement claim -/

/-- The rank of an action in the total order Read < Execute < Write (§3). -/
def AclAction.rank : AclAction → Nat
  | .Read => 0
  | .Execute => 1
  | .Write => 2

/-- Parsing a stored action string against the closed enumeration (§3). -/
def action_of_string (s : String) : Option AclAction :=
  if s == "Read" then some AclAction.Read
  else if s == "Execute" then some AclAction.Execute
  else if s == "Write" then some AclAction.Write
  else none

/-- Parsing a stored decision string against the closed enumeration (§3). -/
def decision_of_string (s : String) : Option AclDecision :=
  if s == "Allow" then some AclDecision.Allow
  else if s == "Deny" then some AclDecision.Deny
  else none

/-- The §3 invariant on a stored row: `action` and `decision` are drawn from
their closed enumerations. -/
def wf_acl (acl : DbAcl) : Bool :=
  (action_of_string acl.action).isSome && (decision_of_string acl.decision).isSome

/-- The §4.D match predicate, written from the spec's words: subject exactly
equal; user passes by equality or glob; path passes by equality or glob;
the action passes by equality or by the action hierarchy (`Allow`: the ACL
action is ≥ the query action; `Deny`: the ACL action is ≤ the query
action).  A row outside the closed enumerations is outside the spec's data
model (§3) and never matches here. -/
def match_predicate_spec (sub usr pth : String) (A : AclAction) (acl : DbAcl) :
    Except PatternError Bool :=
  if acl.subject == sub then
    match (if usr == acl.user then .ok true else check_acl_glob_for_match acl.user usr) with
    | .error e => .error e
    | .ok false => .ok false
    | .ok true =>
      match (if pth == acl.path then .ok true else check_acl_glob_for_match acl.path pth) with
      | .error e => .error e
      | .ok false => .ok false
      | .ok true =>
        match action_of_string acl.action, decision_of_string acl.decision with
        | some a, some d =>
          if acl.action == A.to_string then .ok true
          else
            match d with
            | .Allow => .ok (decide (A.rank ≤ a.rank))
            | .Deny => .ok (decide (a.rank ≤ A.rank))
        | _, _ => .ok false
  else .ok false

/-- First match of the spec predicate in a list, propagating pattern errors. -/
def first_match_spec (sub usr pth : String) (A : AclAction) :
    List DbAcl → Except PatternError (Option DbAcl)
  | [] => .ok none
  | acl :: rest =>
    match match_predicate_spec sub usr pth A acl with
    | .error e => .error e
    | .ok true => .ok (some acl)
    | .ok false => first_match_spec sub usr pth A rest

/-- The §4.D algorithm, written from the spec's words: scan the ACLs with
exact subject match and decision Deny, answering `{allowed=false,
acl_id=that id}` on the first match; then those with decision Allow,
answering `{allowed=true, acl_id=that id}` on the first match; and
default-deny with no id when neither class matched. -/
def decide_spec (rows : List DbAcl) (sub usr pth : String) (A : AclAction) :
    Except AuthCheckError AuthAnswer :=
  let deny_class := rows.filter
    (fun a => a.subject == sub && decision_of_string a.decision == some AclDecision.Deny)
  match first_match_spec sub usr pth A deny_class with
  | .error e => .error (AuthCheckError.Glb e)
  | .ok (some acl) => .ok { allowed := false, acl_id := some acl.id }
  | .ok none =>
    let allow_class := rows.filter
      (fun a => a.subject == sub && decision_of_string a.decision == some AclDecision.Allow)
    match first_match_spec sub usr pth A allow_class with
    | .error e => .error (AuthCheckError.Glb e)
    | .ok (some acl) => .ok { allowed := true, acl_id := some acl.id }
    | .ok none => .ok { allowed := false, acl_id := none }

/-! ### Token identity extraction (auth.rs) and handler glue (handlers.rs) -/

/-- An HTTP request, reduced to its header map (the only part the token
verifier reads); values are the header strings. -/
structure HttpRequest where
  headers : List (String × String)

/-- auth.rs: `get_header_value`: the value of a named header, if present. -/
def get_header_value (req : HttpRequest) (header_name : String) : Option String :=
  (req.headers.find? (fun p => p.1 == header_name)).map (fun p => p.2)

/-- auth.rs: `get_sub`: read the `x-tapis-token` header (failing when it is
absent), parse the configured PEM public key, verify the token, and return
the `sub` claim.  The external crypto is abstracted: `from_pem` models
`RS256PublicKey::from_pem` and `verify_token` models
`verify_token::<NoCustomClaims>` returning the optional `sub` of the
verified claims. -/
def get_sub {K : Type} (from_pem : String → Except String K)
    (verify_token : K → String → Except String (Option String))
    (req : HttpRequest) (pub_key : String) : Except String String :=
  match get_header_value req "x-tapis-token" with
  | none => .error "no tapis token header found"
  | some token =>
    match from_pem pub_key with
    | .error e => .error ("Error generating RSAPublicKey from pub_key string; err: " ++ e)
    | .ok key =>
      match verify_token key token with
      | .error e => .error ("Error parsing token for claims; err: " ++ e)
      | .ok (some sub) => .ok sub
      | .ok none => .error "token claims did not have a subject!"

/-- auth.rs: `get_subject_of_request`: read the `x-tapis-token` header
(failing when it is absent), fetch the public key from the tenants API at
`base_url/v3/tenants/tenant_id` (abstracted by `fetch_publickey`), then
parse, verify and extract the subject as in `get_sub`. -/
def get_subject_of_request {K : Type} (fetch_publickey : String → Except String String)
    (from_pem : String → Except String K)
    (verify_token : K → String → Except String (Option String))
    (req : HttpRequest) (base_url tenant_id : String) : Except String String :=
  match get_header_value req "x-tapis-token" with
  | none => .error "no tapis token header found"
  | some token =>
    match fetch_publickey (base_url ++ "/v3/tenants/" ++ tenant_id) with
    | .error err => .error err
    | .ok pub_key =>
      match from_pem pub_key with
      | .error e => .error ("Error generating RSAPublicKey from pub_key string; err: " ++ e)
      | .ok key =>
        match verify_token key token with
        | .error e => .error ("Error parsing token for claims; err: " ++ e)
        | .ok (some sub) => .ok sub
        | .ok none => .error "token claims did not have a subject!"

/-- Modelled from the spec: the two-argument `get_subject_of_request(req,
pub_key)` that handlers.rs calls (identity extraction with a preloaded
`RS256PublicKey`, §4.A and §9) is not among the sources under src/.  Per
the spec it fails with the missing-token error when the `x-tapis-token`
header is absent and otherwise verifies the token against the preloaded
key and extracts the `sub` claim; signature verification and claims
parsing are abstracted by `verify_token`. -/
def get_subject_of_request_pk {K : Type}
    (verify_token : K → String → Except String (Option String))
    (req : HttpRequest) (pub_key : K) : Except String String :=
  match get_header_value req "x-tapis-token" with
  | none => .error "no tapis token header found"
  | some token =>
    match verify_token pub_key token with
    | .error e => .error ("Error parsing token for claims; err: " ++ e)
    | .ok (some sub) => .ok sub
    | .ok none => .error "token claims did not have a subject!"

/-- The cargo package version compiled into error envelopes
(`env!("CARGO_PKG_VERSION")`); its concrete value is irrelevant to the
claims. -/
def cargo_pkg_version : String := "0.1.0"

/-- representations.rs: `TagentError`, the handlers' error type. -/
structure TagentError where
  message : String
  version : String
deriving DecidableEq

/-- representations.rs: `TagentError::new_with_version` (also the
`From<String>` conversion applied by `?` on auth failures). -/
def TagentError.new_with_version (message : String) : TagentError :=
  { message := message, version := cargo_pkg_version }

/-- representations.rs: `ErrorRsp`, the error envelope body. -/
structure ErrorRsp where
  message : String
  status : String
  result : String
  version : String
deriving DecidableEq

/-- representations.rs: `impl ResponseError for TagentError`: the envelope
written for a failed request has `status = "error"`. -/
def TagentError.error_response (e : TagentError) : ErrorRsp :=
  { status := "error", message := e.message, version := e.version, result := "none" }

/-- representations.rs: `AclStringRsp`, the success envelope for ACL
endpoints with a string result. -/
structure AclStringRsp where
  message : String
  status : String
  result : String
  version : String
deriving DecidableEq

/-- handlers.rs: `delete_acl_by_id`: resolve the caller's identity (an
auth failure becomes a `TagentError` and the store is untouched), delete by
id ignoring the affected-row count, and answer a success envelope. -/
def delete_acl_by_id {K : Type}
    (verify_token : K → String → Except String (Option String))
    (req : HttpRequest) (pub_key : K) (version : String)
    (db : List DbAcl) (acl_id : Int) : Except TagentError AclStringRsp × List DbAcl :=
  match get_subject_of_request_pk verify_token req pub_key with
  | .error e => (.error (TagentError.new_with_version e), db)
  | .ok _subject =>
    let result := delete_acl_from_db_by_id db acl_id
    (.ok { status := "success", message := "ACL deleted successfully.",
           result := "none", version := version }, result.2)

/-- handlers.rs: `update_acl_by_id`: resolve the caller's identity, update
the row by id passing the caller's subject as the new `create_by`, and
answer a success envelope. -/
def update_acl_by_id {K : Type}
    (verify_token : K → String → Except String (Option String))
    (req : HttpRequest) (pub_key : K) (version : String)
    (db : List DbAcl) (acl_id : Int) (acl : NewAclJson) :
    Except TagentError AclStringRsp × List DbAcl :=
  match get_subject_of_request_pk verify_token req pub_key with
  | .error e => (.error (TagentError.new_with_version e), db)
  | .ok subject =>
    let result := update_acl_in_db_by_id db acl_id acl subject
    (.ok { status := "success", message := "ACL updated successfully.",
           result := "none", version := version }, result.2)

/-- representations.rs: `TagentError::new`. -/
def TagentError.new (message version : String) : TagentError :=
  { message := message, version := version }

/-- representations.rs: `FileUploadRsp`, the success envelope for uploads. -/
structure FileUploadRsp where
  message : String
  status : String
  version : String
  result : String
deriving DecidableEq

/-- The filesystem the file-contents handlers touch, abstracted:
`exists_at` and `is_dir` model `Path::exists` / `Path::is_dir`, `read`
models `NamedFile::open` followed by streaming (`none` is an IO error),
and `save` models `save_file` on the multipart payload, returning the
uploaded file's path (`none` is an IO error). -/
structure FileSystem where
  exists_at : String → Bool
  is_dir : String → Bool
  read : String → Option String
  save : String → Option String

/-- handlers.rs: `get_file_contents_path` (route GET
/files/contents/{path}).  It performs no identity extraction: the
request `_req` is used only to build the streaming response, never read
for headers.  Joining `root_dir` with the route's relative `path` segment
models `PathBuf::push`, and the debug formatting of the
missing-path message is simplified to plain concatenation. -/
def get_file_contents_path (fs : FileSystem) (_req : HttpRequest)
    (version root_dir path : String) : Except TagentError String :=
  let full_path := root_dir ++ "/" ++ path
  let message := "There was an error"
  let me :=
    if !(fs.exists_at full_path) then
      ("Invalid path; path " ++ full_path ++ " does not exist", true)
    else (message, false)
  let me :=
    if fs.is_dir full_path then ("Directory download is not supported", true)
    else me
  if me.2 then .error (TagentError.new me.1 version)
  else
    match fs.read full_path with
    | none => .error (TagentError.new_with_version "IO Error: could not open file")
    | some fbody => .ok fbody

/-- handlers.rs: `post_file_contents_path` (route POST
/files/contents/{path}).  The Rust handler does not even take the
`HttpRequest`: it reads only the app state, the path parameter and the
multipart payload, so no identity extraction can occur. -/
def post_file_contents_path (fs : FileSystem)
    (version root_dir path : String) : Except TagentError FileUploadRsp :=
  let full_path := root_dir ++ "/" ++ path
  let message := "There was an error"
  let me :=
    if !(fs.exists_at full_path) then
      ("Invalid path; path " ++ full_path ++ " does not exist", true)
    else (message, false)
  let me :=
    if !(fs.is_dir full_path) then
      ("Invalid path; path " ++ full_path ++ " must be a directory", true)
    else me
  if me.2 then .error (TagentError.new me.1 version)
  else
    match fs.save full_path with
    | none => .error (TagentError.new_with_version "IO Error: could not save file")
    | some upload_path =>
      .ok { status := "success",
            message := "file uploaded to " ++ upload_path ++ " successfully.",
            result := "none", version := version }

/-- The string with every character ASCII-lowercased (for stating the
case-insensitivity of the matcher). -/
def lower_str (s : String) : String :=
  String.mk (s.data.map ascii_lower)

/-- ASCII-lowercasing of a pattern token's literal character; wildcards are
unchanged. -/
def token_lower : GlobToken → GlobToken
  | .lit c => .lit (ascii_lower c)
  | .anyChar => .anyChar
  | .anySeq => .anySeq

/-- The path invariant of §3: every stored row's path begins with `/`. -/
def path_invariant (db : List DbAcl) : Prop :=
  ∀ r ∈ db, starts_with_slash r.path = true

instance (db : List DbAcl) : Decidable (path_invariant db) :=
  List.decidableBAll _ db

/-! ## Character and glob lemmas -/

theorem ascii_lower_toNat_of_upper {c : Char} (h1 : 65 ≤ c.toNat) (h2 : c.toNat ≤ 90) :
    (ascii_lower c).toNat = c.toNat + 32 := by
  have hv : (c.toNat + 32).isValidChar := by
    left
    omega
  unfold ascii_lower
  rw [if_pos ⟨h1, h2⟩, Char.ofNat, dif_pos hv]
  simp [Char.ofNatAux, Char.toNat, UInt32.ofNat', UInt32.toNat, BitVec.toNat_ofNat]

theorem ascii_lower_of_not_upper {c : Char} (h : ¬(65 ≤ c.toNat ∧ c.toNat ≤ 90)) :
    ascii_lower c = c := by
  unfold ascii_lower
  exact if_neg h

theorem ascii_lower_idem (c : Char) : ascii_lower (ascii_lower c) = ascii_lower c := by
  by_cases h : 65 ≤ c.toNat ∧ c.toNat ≤ 90
  · have ht := ascii_lower_toNat_of_upper h.1 h.2
    exact ascii_lower_of_not_upper (by omega)
  · rw [ascii_lower_of_not_upper h]
    exact ascii_lower_of_not_upper h

theorem chars_eq_lower_left (a b : Char) : chars_eq (ascii_lower a) b = chars_eq a b := by
  unfold chars_eq
  rw [ascii_lower_idem]

theorem chars_eq_lower_right (a b : Char) : chars_eq a (ascii_lower b) = chars_eq a b := by
  unfold chars_eq
  rw [ascii_lower_idem]

theorem ascii_lower_eq_iff_of_nonletter {c d : Char}
    (hd : d.toNat < 65 ∨ (90 < d.toNat ∧ d.toNat < 97) ∨ 122 < d.toNat) :
    (ascii_lower c = d) ↔ (c = d) := by
  by_cases hu : 65 ≤ c.toNat ∧ c.toNat ≤ 90
  · have ht := ascii_lower_toNat_of_upper hu.1 hu.2
    constructor
    · intro h
      rw [h] at ht
      omega
    · intro h
      rw [h] at hu
      omega
  · rw [ascii_lower_of_not_upper hu]

theorem globSeq_map_lower (m : List Char → Bool)
    (hm : ∀ s, m (s.map ascii_lower) = m s) :
    ∀ s, globSeq m (s.map ascii_lower) = globSeq m s := by
  intro s
  induction s with
  | nil => simp [globSeq]
  | cons c s ih =>
    simp only [List.map_cons, globSeq]
    rw [ih]
    have h := hm (c :: s)
    simp only [List.map_cons] at h
    rw [h]

theorem globMatchTokens_map_lower (ts : List GlobToken) : ∀ s : List Char,
    globMatchTokens ts (s.map ascii_lower) = globMatchTokens ts s := by
  induction ts with
  | nil =>
    intro s
    cases s <;> simp [globMatchTokens]
  | cons t ts ih =>
    cases t with
    | lit ch =>
      intro s
      cases s with
      | nil => simp [globMatchTokens]
      | cons d s =>
        simp only [List.map_cons, globMatchTokens]
        rw [chars_eq_lower_left, ih]
    | anyChar =>
      intro s
      cases s with
      | nil => simp [globMatchTokens]
      | cons d s =>
        simp only [List.map_cons, globMatchTokens]
        exact ih s
    | anySeq =>
      intro s
      simp only [globMatchTokens]
      exact globSeq_map_lower _ ih s

theorem parseGlob_map_lower (l : List Char) :
    parseGlob (l.map ascii_lower) = (parseGlob l).map (List.map token_lower) := by
  induction l with
  | nil => rfl
  | cons c l ih =>
    by_cases h1 : c = '*'
    · subst h1
      have hl : ascii_lower '*' = '*' := by decide
      simp only [List.map_cons, parseGlob, hl, if_pos rfl, ih]
      cases parseGlob l <;> rfl
    · by_cases h2 : c = '?'
      · subst h2
        have hl : ascii_lower '?' = '?' := by decide
        simp only [List.map_cons, parseGlob, hl,
          if_neg (show ('?' : Char) ≠ '*' by decide), if_pos rfl, ih]
        cases parseGlob l <;> rfl
      · by_cases h3 : c = '['
        · subst h3
          have hl : ascii_lower '[' = '[' := by decide
          simp only [List.map_cons, parseGlob, hl,
            if_neg (show ('[' : Char) ≠ '*' by decide),
            if_neg (show ('[' : Char) ≠ '?' by decide), if_pos rfl]
          rfl
        · have g1 : ¬(ascii_lower c = '*') := by
            rw [ascii_lower_eq_iff_of_nonletter (by decide)]
            exact h1
          have g2 : ¬(ascii_lower c = '?') := by
            rw [ascii_lower_eq_iff_of_nonletter (by decide)]
            exact h2
          have g3 : ¬(ascii_lower c = '[') := by
            rw [ascii_lower_eq_iff_of_nonletter (by decide)]
            exact h3
          simp only [List.map_cons, parseGlob, if_neg h1, if_neg h2, if_neg h3,
            if_neg g1, if_neg g2, if_neg g3, ih]
          cases parseGlob l <;> simp [Except.map, token_lower]

theorem globMatchTokens_map_token_lower (ts : List GlobToken) : ∀ s : List Char,
    globMatchTokens (ts.map token_lower) s = globMatchTokens ts s := by
  induction ts with
  | nil => intro s; rfl
  | cons t ts ih =>
    cases t with
    | lit ch =>
      intro s
      cases s with
      | nil => simp [token_lower, globMatchTokens]
      | cons d s =>
        simp only [List.map_cons, token_lower, globMatchTokens]
        rw [chars_eq_lower_right, ih]
    | anyChar =>
      intro s
      cases s with
      | nil => simp [token_lower, globMatchTokens]
      | cons d s =>
        simp only [List.map_cons, token_lower, globMatchTokens]
        exact ih s
    | anySeq =>
      intro s
      simp only [List.map_cons, token_lower, globMatchTokens]
      rw [funext ih]

theorem globSeq_of_matchRest (m : List Char → Bool) (s : List Char) (h : m s = true) :
    globSeq m s = true := by
  cases s with
  | nil => simpa [globSeq] using h
  | cons c s => simp [globSeq, h]

theorem check_acl_glob_lower_candidate (p s : String) :
    check_acl_glob_for_match p (lower_str s) = check_acl_glob_for_match p s := by
  unfold check_acl_glob_for_match lower_str
  cases parseGlob p.data with
  | error e => rfl
  | ok ts =>
    simp [globMatchTokens_map_lower]

theorem check_acl_glob_lower_pattern (p s : String) :
    check_acl_glob_for_match (lower_str p) s = check_acl_glob_for_match p s := by
  unfold check_acl_glob_for_match lower_str
  rw [show (String.mk (p.data.map ascii_lower)).data = p.data.map ascii_lower from rfl]
  rw [parseGlob_map_lower]
  cases parseGlob p.data with
  | error e => rfl
  | ok ts =>
    simp only [Except.map]
    rw [globMatchTokens_map_token_lower]

/-- Claim C4: the glob matcher used for the user and path fields compares
case-insensitively (lower-casing the candidate or the pattern does not
change any answer), and `*` matches any run of characters including the
path separator `/`: a `*` wildcard absorbs an arbitrary run in front of
any matching rest, and concretely `/base/foo/*` matches `/base/foo/x/y/z`
and `/Base/*.TXT` matches `/base/foo.txt`. -/
theorem glob_case_insensitive_and_star_spans_separators :
    (∀ p s : String, check_acl_glob_for_match p (lower_str s) = check_acl_glob_for_match p s)
    ∧ (∀ p s : String, check_acl_glob_for_match (lower_str p) s = check_acl_glob_for_match p s)
    ∧ (∀ (ts : List GlobToken) (run rest : List Char),
        globMatchTokens ts rest = true →
        globMatchTokens (GlobToken.anySeq :: ts) (run ++ rest) = true)
    ∧ check_acl_glob_for_match "/base/foo/*" "/base/foo/x/y/z" = .ok true
    ∧ check_acl_glob_for_match "/Base/*.TXT" "/base/foo.txt" = .ok true := by
  refine ⟨check_acl_glob_lower_candidate, check_acl_glob_lower_pattern, ?_, by decide, by decide⟩
  intro ts run rest h
  induction run with
  | nil =>
    simpa [globMatchTokens] using globSeq_of_matchRest _ rest h
  | cons c run ih =>
    simp only [List.cons_append, globMatchTokens, globSeq]
    simp only [globMatchTokens] at ih
    simp [ih]

/-- Witness for C4 at concrete inputs: the star-absorption part applied to
the tokens of `*`, the run `x/y` and the empty rest. -/
theorem glob_case_insensitive_and_star_spans_separators_witness :
    globMatchTokens [GlobToken.anySeq] ("x/y".data ++ "".data) = true :=
  glob_case_insensitive_and_star_spans_separators.2.2.1 [] "x/y".data "".data (by decide)

/-! ## Decision-engine lemmas -/

theorem firstMatch_ok_some {sub usr pth act : String} {l : List DbAcl} {acl : DbAcl}
    (h : firstMatch sub usr pth act l = .ok (some acl)) :
    acl ∈ l ∧ check_acl_for_match sub usr pth act acl = .ok true := by
  induction l with
  | nil => simp [firstMatch] at h
  | cons a rest ih =>
    simp only [firstMatch] at h
    cases hc : check_acl_for_match sub usr pth act a with
    | error e =>
      rw [hc] at h
      simp at h
    | ok b =>
      rw [hc] at h
      cases b with
      | false =>
        obtain ⟨hm, hck⟩ := ih h
        exact ⟨List.mem_cons_of_mem _ hm, hck⟩
      | true =>
        simp only [] at h
        injection h with h2
        injection h2 with h3
        subst h3
        exact ⟨List.mem_cons_self _ _, hc⟩

theorem firstMatch_ok_none {sub usr pth act : String} {l : List DbAcl}
    (h : firstMatch sub usr pth act l = .ok none) :
    ∀ a ∈ l, check_acl_for_match sub usr pth act a = .ok false := by
  induction l with
  | nil =>
    intro a ha
    cases ha
  | cons b rest ih =>
    simp only [firstMatch] at h
    cases hc : check_acl_for_match sub usr pth act b with
    | error e =>
      rw [hc] at h
      simp at h
    | ok bb =>
      rw [hc] at h
      cases bb with
      | true => simp at h
      | false =>
        intro a ha
        rcases List.mem_cons.mp ha with rfl | hm
        · exact hc
        · exact ih h a hm

theorem firstMatch_not_none {sub usr pth act : String} {l : List DbAcl} {acl : DbAcl}
    (hm : acl ∈ l) (hc : check_acl_for_match sub usr pth act acl = .ok true)
    (h : firstMatch sub usr pth act l = .ok none) : False := by
  have h2 := firstMatch_ok_none h acl hm
  rw [hc] at h2
  simp at h2

/-- Claim C2: deny precedence.  If some ACL of the store with the query's
subject and decision `Deny` satisfies the match predicate, then whenever
the decision engine produces an answer, that answer has `allowed = false`
— regardless of which (or how many) Allow ACLs also match. -/
theorem deny_match_forces_denial (rows : List DbAcl) (sub usr pth : String)
    (act : AclAction) (acl : DbAcl) (ans : AuthAnswer)
    (hmem : acl ∈ rows) (hsub : acl.subject = sub) (hdec : acl.decision = "Deny")
    (hmatch : check_acl_for_match sub usr pth act.to_string acl = .ok true)
    (hok : is_authz_db (.ok rows) sub usr pth act = .ok ans) :
    ans.allowed = false := by
  have hmemf : acl ∈ rows.filter
      (fun a => a.subject == sub && a.decision == AclDecision.Deny.to_string) := by
    refine List.mem_filter.mpr ⟨hmem, ?_⟩
    simp [hsub, hdec, AclDecision.to_string]
  simp only [is_authz_db] at hok
  cases hfm : firstMatch sub usr pth act.to_string (rows.filter
      (fun a => a.subject == sub && a.decision == AclDecision.Deny.to_string)) with
  | error e =>
    rw [hfm] at hok
    simp at hok
  | ok o =>
    cases o with
    | none => exact absurd hfm (fun h => firstMatch_not_none hmemf hmatch h)
    | some b =>
      rw [hfm] at hok
      simp only [] at hok
      injection hok with h2
      rw [← h2]

/-- Witness for C2 at a concrete store: one matching Deny ACL and one
matching Allow ACL for the same subject; the answer is a denial. -/
theorem deny_match_forces_denial_witness :
    ({ allowed := false, acl_id := some 2 } : AuthAnswer).allowed = false :=
  deny_match_forces_denial
    [{ id := 1, subject := "s", action := "Write", path := "/f", user := "self",
       create_by := "c", create_time := "t", decision := "Allow" },
     { id := 2, subject := "s", action := "Write", path := "/f", user := "self",
       create_by := "c", create_time := "t", decision := "Deny" }]
    "s" "self" "/f" .Write
    { id := 2, subject := "s", action := "Write", path := "/f", user := "self",
      create_by := "c", create_time := "t", decision := "Deny" }
    { allowed := false, acl_id := some 2 }
    (by decide) rfl rfl (by decide) (by decide)

/-- Claim C9: whenever the decision engine returns an answer with
`allowed = true`, its `acl_id` is the id of some stored ACL satisfying the
match predicate; and `acl_id = none` only in the default-deny case, where
`allowed = false` and no ACL of either decision class with the query's
subject matches. -/
theorem allowed_answer_has_matching_acl_id (rows : List DbAcl) (sub usr pth : String)
    (act : AclAction) (ans : AuthAnswer)
    (hok : is_authz_db (.ok rows) sub usr pth act = .ok ans) :
    (ans.allowed = true →
      ∃ acl, acl ∈ rows ∧ ans.acl_id = some acl.id ∧
        check_acl_for_match sub usr pth act.to_string acl = .ok true)
    ∧ (ans.acl_id = none →
      ans.allowed = false ∧
        ∀ acl ∈ rows,
          ((acl.subject == sub && acl.decision == AclDecision.Deny.to_string) = true ∨
           (acl.subject == sub && acl.decision == AclDecision.Allow.to_string) = true) →
          check_acl_for_match sub usr pth act.to_string acl = .ok false) := by
  simp only [is_authz_db] at hok
  cases hfmd : firstMatch sub usr pth act.to_string (rows.filter
      (fun a => a.subject == sub && a.decision == AclDecision.Deny.to_string)) with
  | error e =>
    rw [hfmd] at hok
    simp at hok
  | ok od =>
    rw [hfmd] at hok
    cases od with
    | some b =>
      simp only [] at hok
      injection hok with h2
      constructor
      · intro h
        rw [← h2] at h
        simp at h
      · intro h
        rw [← h2] at h
        simp at h
    | none =>
      cases hfma : firstMatch sub usr pth act.to_string (rows.filter
          (fun a => a.subject == sub && a.decision == AclDecision.Allow.to_string)) with
      | error e =>
        rw [hfma] at hok
        simp at hok
      | ok oa =>
        rw [hfma] at hok
        cases oa with
        | some b =>
          simp only [] at hok
          injection hok with h2
          constructor
          · intro _
            obtain ⟨hbmem, hbchk⟩ := firstMatch_ok_some hfma
            refine ⟨b, (List.mem_filter.mp hbmem).1, ?_, hbchk⟩
            rw [← h2]
          · intro h
            rw [← h2] at h
            simp at h
        | none =>
          simp only [] at hok
          injection hok with h2
          constructor
          · intro h
            rw [← h2] at h
            simp at h
          · intro _
            refine ⟨by rw [← h2], ?_⟩
            intro acl hmem hclass
            rcases hclass with hd | ha
            · exact firstMatch_ok_none hfmd acl (List.mem_filter.mpr ⟨hmem, hd⟩)
            · exact firstMatch_ok_none hfma acl (List.mem_filter.mpr ⟨hmem, ha⟩)

/-- Witness for C9 at a concrete store with one matching Allow ACL. -/
theorem allowed_answer_has_matching_acl_id_witness :
    ∃ acl, acl ∈ [({ id := 1, subject := "s", action := "Write", path := "/f",
                     user := "self", create_by := "c", create_time := "t",
                     decision := "Allow" } : DbAcl)] ∧
      (({ allowed := true, acl_id := some 1 } : AuthAnswer)).acl_id = some acl.id ∧
      check_acl_for_match "s" "self" "/f" (AclAction.to_string .Read) acl = .ok true :=
  (allowed_answer_has_matching_acl_id
    [{ id := 1, subject := "s", action := "Write", path := "/f", user := "self",
       create_by := "c", create_time := "t", decision := "Allow" }]
    "s" "self" "/f" .Read { allowed := true, acl_id := some 1 } (by decide)).1 rfl

/-- Claim C6: the decision engine never produces an answer — and so never
an allow — when an internal error occurs.  A failed store load is returned
as a wrapped storage error; an ill-formed glob pattern that has to be
evaluated makes the match predicate fail, and a failing scan of either the
Deny or the Allow class makes `is_authz_db` return the wrapped pattern
error instead of any `AuthAnswer`. -/
theorem is_authz_db_never_allows_on_error :
    (∀ (e : DieselError) (sub usr pth : String) (act : AclAction),
        is_authz_db (.error e) sub usr pth act = .error (AuthCheckError.Db e))
    ∧ (∀ (sub usr pth act : String) (acl : DbAcl) (pe : PatternError),
        sub = acl.subject → usr ≠ acl.user →
        parseGlob acl.user.data = .error pe →
        check_acl_for_match sub usr pth act acl = .error pe)
    ∧ (∀ (rows : List DbAcl) (sub usr pth : String) (act : AclAction) (pe : PatternError),
        firstMatch sub usr pth act.to_string (rows.filter
          (fun a => a.subject == sub && a.decision == AclDecision.Deny.to_string)) =
            .error pe →
        is_authz_db (.ok rows) sub usr pth act = .error (AuthCheckError.Glb pe))
    ∧ (∀ (rows : List DbAcl) (sub usr pth : String) (act : AclAction) (pe : PatternError),
        firstMatch sub usr pth act.to_string (rows.filter
          (fun a => a.subject == sub && a.decision == AclDecision.Deny.to_string)) =
            .ok none →
        firstMatch sub usr pth act.to_string (rows.filter
          (fun a => a.subject == sub && a.decision == AclDecision.Allow.to_string)) =
            .error pe →
        is_authz_db (.ok rows) sub usr pth act = .error (AuthCheckError.Glb pe)) := by
  refine ⟨fun e sub usr pth act => rfl, ?_, ?_, ?_⟩
  · intro sub usr pth act acl pe hsub hne hp
    subst hsub
    simp [check_acl_for_match, check_acl_glob_for_match, hp, hne]
  · intro rows sub usr pth act pe h
    simp only [is_authz_db]
    rw [h]
  · intro rows sub usr pth act pe h1 h2
    simp only [is_authz_db]
    rw [h1]
    simp only []
    rw [h2]

/-- Witness for C6 at a concrete store whose single Deny ACL carries the
ill-formed path pattern `[`: the engine returns the wrapped pattern error. -/
theorem is_authz_db_never_allows_on_error_witness :
    is_authz_db
      (.ok [{ id := 7, subject := "s", action := "Write", path := "[", user := "self",
              create_by := "c", create_time := "t", decision := "Deny" }])
      "s" "self" "/p" .Write =
      .error (AuthCheckError.Glb { msg := "invalid range pattern" }) :=
  is_authz_db_never_allows_on_error.2.2.1
    [{ id := 7, subject := "s", action := "Write", path := "[", user := "self",
       create_by := "c", create_time := "t", decision := "Deny" }]
    "s" "self" "/p" .Write { msg := "invalid range pattern" } (by decide)

/-- Characterization of the match predicate on rows whose `action` and
`decision` fields are enumeration strings: it holds exactly when the
subject is an exact match, the user and path components pass (by equality
or glob), and the action comparison required by the row's decision holds
in the order Read < Execute < Write. -/
theorem check_acl_for_match_ok_true_iff (sub usr pth : String) (acl : DbAcl)
    (a : AclAction) (d : AclDecision) (A : AclAction)
    (hact : acl.action = a.to_string) (hdec : acl.decision = d.to_string) :
    check_acl_for_match sub usr pth A.to_string acl = .ok true ↔
      (sub = acl.subject ∧
       (usr = acl.user ∨ check_acl_glob_for_match acl.user usr = .ok true) ∧
       (pth = acl.path ∨ check_acl_glob_for_match acl.path pth = .ok true) ∧
       (match d with
        | AclDecision.Allow => A.rank ≤ a.rank
        | AclDecision.Deny => a.rank ≤ A.rank)) := by
  unfold check_acl_for_match
  by_cases hs : sub = acl.subject
  · subst hs
    simp only [bne_self_eq_false, Bool.false_eq_true, if_false, true_and]
    by_cases hu : usr = acl.user
    · subst hu
      simp only [bne_self_eq_false, Bool.false_eq_true, if_false, true_or, true_and]
      by_cases hp : pth = acl.path
      · subst hp
        simp only [bne_self_eq_false, Bool.false_eq_true, if_false, true_or, true_and]
        cases d <;> cases a <;> cases A <;>
          simp [hact, hdec, DbAcl.is_leq_action, AclAction.to_string,
            AclDecision.to_string, AclAction.rank]
      · have hb : (pth != acl.path) = true := by simp [bne_iff_ne, hp]
        rw [hb]
        simp only [if_true]
        cases hg : check_acl_glob_for_match acl.path pth with
        | error e => simp [hp, hg]
        | ok b =>
          cases b with
          | false => simp [hp, hg]
          | true =>
            simp only [hg, hp, false_or, true_and]
            cases d <;> cases a <;> cases A <;>
              simp [hact, hdec, DbAcl.is_leq_action, AclAction.to_string,
                AclDecision.to_string, AclAction.rank]
    · have hb : (usr != acl.user) = true := by simp [bne_iff_ne, hu]
      rw [hb]
      simp only [if_true]
      cases hg : check_acl_glob_for_match acl.user usr with
      | error e => simp [hu, hg]
      | ok b =>
        cases b with
        | false => simp [hu, hg]
        | true =>
          simp only [hg, hu, false_or, true_and]
          by_cases hp : pth = acl.path
          · subst hp
            simp only [bne_self_eq_false, Bool.false_eq_true, if_false, true_or, true_and]
            cases d <;> cases a <;> cases A <;>
              simp [hact, hdec, DbAcl.is_leq_action, AclAction.to_string,
                AclDecision.to_string, AclAction.rank]
          · have hb2 : (pth != acl.path) = true := by simp [bne_iff_ne, hp]
            rw [hb2]
            simp only [if_true]
            cases hg2 : check_acl_glob_for_match acl.path pth with
            | error e => simp [hp, hg2]
            | ok b2 =>
              cases b2 with
              | false => simp [hp, hg2]
              | true =>
                simp only [hg2, hp, false_or, true_and]
                cases d <;> cases a <;> cases A <;>
                  simp [hact, hdec, DbAcl.is_leq_action, AclAction.to_string,
                    AclDecision.to_string, AclAction.rank]
  · have hb : (sub != acl.subject) = true := by simp [bne_iff_ne, hs]
    rw [hb]
    simp [hs]

/-- Claim C3: the match predicate is monotone in the action hierarchy
Read < Execute < Write.  For a row whose action field spells the action
`a`: if its decision is Allow it matches query action `A` iff subject,
user and path pass and `A ≤ a`; if its decision is Deny it matches iff the
components pass and `a ≤ A`. -/
theorem check_acl_for_match_action_hierarchy (sub usr pth : String) (acl : DbAcl)
    (a A : AclAction) (hact : acl.action = a.to_string) :
    (acl.decision = "Allow" →
      (check_acl_for_match sub usr pth A.to_string acl = .ok true ↔
        (sub = acl.subject ∧
         (usr = acl.user ∨ check_acl_glob_for_match acl.user usr = .ok true) ∧
         (pth = acl.path ∨ check_acl_glob_for_match acl.path pth = .ok true) ∧
         A.rank ≤ a.rank)))
    ∧ (acl.decision = "Deny" →
      (check_acl_for_match sub usr pth A.to_string acl = .ok true ↔
        (sub = acl.subject ∧
         (usr = acl.user ∨ check_acl_glob_for_match acl.user usr = .ok true) ∧
         (pth = acl.path ∨ check_acl_glob_for_match acl.path pth = .ok true) ∧
         a.rank ≤ A.rank))) :=
  ⟨fun hdec => check_acl_for_match_ok_true_iff sub usr pth acl a .Allow A hact hdec,
   fun hdec => check_acl_for_match_ok_true_iff sub usr pth acl a .Deny A hact hdec⟩

/-- Witness for C3: an Allow-Write ACL matches a Read query on the same
subject, user and path. -/
theorem check_acl_for_match_action_hierarchy_witness :
    check_acl_for_match "s" "self" "/f" (AclAction.to_string .Read)
      { id := 1, subject := "s", action := "Write", path := "/f", user := "self",
        create_by := "c", create_time := "t", decision := "Allow" } = .ok true :=
  ((check_acl_for_match_action_hierarchy "s" "self" "/f"
      { id := 1, subject := "s", action := "Write", path := "/f", user := "self",
        create_by := "c", create_time := "t", decision := "Allow" }
      .Write .Read rfl).1 rfl).mpr ⟨rfl, Or.inl rfl, Or.inl rfl, by decide⟩

/-! ## Refinement of the decision engine against the spec algorithm -/

theorem exists_action_string {s : String} (h : (action_of_string s).isSome = true) :
    ∃ a : AclAction, s = AclAction.to_string a := by
  by_cases h1 : s = "Read"
  · exact ⟨.Read, h1⟩
  · by_cases h2 : s = "Execute"
    · exact ⟨.Execute, h2⟩
    · by_cases h3 : s = "Write"
      · exact ⟨.Write, h3⟩
      · exfalso
        simp [action_of_string, h1, h2, h3] at h

theorem exists_decision_string {s : String} (h : (decision_of_string s).isSome = true) :
    ∃ d : AclDecision, s = AclDecision.to_string d := by
  by_cases h1 : s = "Allow"
  · exact ⟨.Allow, h1⟩
  · by_cases h2 : s = "Deny"
    · exact ⟨.Deny, h2⟩
    · exfalso
      simp [decision_of_string, h1, h2] at h

theorem if_bne_comm (x y : String) (e : Except PatternError Bool) :
    (if x != y then e else .ok true) = (if x == y then .ok true else e) := by
  by_cases h : x = y <;> simp [h]

theorem check_acl_for_match_eq_spec (sub usr pth : String) (A : AclAction)
    (acl : DbAcl) (hw : wf_acl acl = true) :
    check_acl_for_match sub usr pth A.to_string acl =
      match_predicate_spec sub usr pth A acl := by
  have hw' := hw
  simp only [wf_acl, Bool.and_eq_true] at hw'
  obtain ⟨a, hact⟩ := exists_action_string hw'.1
  obtain ⟨d, hdec⟩ := exists_decision_string hw'.2
  unfold check_acl_for_match match_predicate_spec
  by_cases hs : sub = acl.subject
  · subst hs
    rw [if_neg (show ¬((acl.subject != acl.subject) = true) by simp),
      if_pos (show (acl.subject == acl.subject) = true by simp)]
    rw [if_bne_comm usr acl.user, if_bne_comm pth acl.path]
    cases h1 : (if usr == acl.user then Except.ok true
        else check_acl_glob_for_match acl.user usr) with
    | error e => rfl
    | ok b =>
      cases b with
      | false => rfl
      | true =>
        cases h2 : (if pth == acl.path then Except.ok true
            else check_acl_glob_for_match acl.path pth) with
        | error e => rfl
        | ok b2 =>
          cases b2 with
          | false => rfl
          | true =>
            simp only [DbAcl.is_leq_action, hact, hdec]
            cases a <;> cases d <;> cases A <;> decide
  · have hb : (sub != acl.subject) = true := by simp [bne_iff_ne, hs]
    have hb2 : (acl.subject == sub) = false := by simp [Ne.symm hs]
    rw [hb, hb2]
    simp

theorem firstMatch_eq_spec (sub usr pth : String) (A : AclAction) (l : List DbAcl)
    (h : ∀ r ∈ l, wf_acl r = true) :
    firstMatch sub usr pth A.to_string l = first_match_spec sub usr pth A l := by
  induction l with
  | nil => rfl
  | cons x rest ih =>
    simp only [firstMatch, first_match_spec]
    rw [check_acl_for_match_eq_spec sub usr pth A x (h x (List.mem_cons_self _ _))]
    cases match_predicate_spec sub usr pth A x with
    | error e => rfl
    | ok b =>
      cases b with
      | true => rfl
      | false => exact ih (fun r hr => h r (List.mem_cons_of_mem _ hr))

theorem class_filter_eq (sub : String) (dc : AclDecision) (a : DbAcl)
    (hw : wf_acl a = true) :
    (a.subject == sub && a.decision == AclDecision.to_string dc) =
      (a.subject == sub && decision_of_string a.decision == some dc) := by
  have hw' := hw
  simp only [wf_acl, Bool.and_eq_true] at hw'
  obtain ⟨d, hdec⟩ := exists_decision_string hw'.2
  rw [hdec]
  cases d <;> cases dc <;> simp [AclDecision.to_string, decision_of_string]

/-- Claim C1: the decision engine follows the spec's algorithm exactly.
For any store whose rows respect the §3 enumeration invariant,
`is_authz_db` equals the algorithm of §4.D written from the spec: evaluate
the match predicate over exactly the ACLs with the query's subject and
decision Deny, answering `{allowed=false, acl_id=that id}` on the first
match; only then over those with decision Allow, answering `{allowed=true,
acl_id=that id}` on the first match; and default-deny with no id when no
ACL of either class matches. -/
theorem is_authz_db_eq_decide_spec (rows : List DbAcl) (sub usr pth : String)
    (act : AclAction) (hw : ∀ r ∈ rows, wf_acl r = true) :
    is_authz_db (.ok rows) sub usr pth act = decide_spec rows sub usr pth act := by
  simp only [is_authz_db, decide_spec]
  have hdf : rows.filter
      (fun a => a.subject == sub && a.decision == AclDecision.Deny.to_string) =
      rows.filter
        (fun a => a.subject == sub && decision_of_string a.decision == some AclDecision.Deny) :=
    List.filter_congr (fun x hx => class_filter_eq sub .Deny x (hw x hx))
  have haf : rows.filter
      (fun a => a.subject == sub && a.decision == AclDecision.Allow.to_string) =
      rows.filter
        (fun a => a.subject == sub && decision_of_string a.decision == some AclDecision.Allow) :=
    List.filter_congr (fun x hx => class_filter_eq sub .Allow x (hw x hx))
  rw [hdf, haf]
  rw [firstMatch_eq_spec sub usr pth act _
    (fun r hr => hw r (List.mem_of_mem_filter hr))]
  cases first_match_spec sub usr pth act (rows.filter
      (fun a => a.subject == sub && decision_of_string a.decision == some AclDecision.Deny)) with
  | error e => rfl
  | ok o =>
    cases o with
    | some b => rfl
    | none =>
      rw [firstMatch_eq_spec sub usr pth act _
        (fun r hr => hw r (List.mem_of_mem_filter hr))]

/-- Witness for C1 at a concrete store of one Deny and one Allow row. -/
theorem is_authz_db_eq_decide_spec_witness :
    is_authz_db
      (.ok [{ id := 1, subject := "s", action := "Write", path := "/f", user := "self",
              create_by := "c", create_time := "t", decision := "Allow" },
            { id := 2, subject := "s", action := "Read", path := "/g", user := "*",
              create_by := "c", create_time := "t", decision := "Deny" }])
      "s" "self" "/f" .Read =
    decide_spec
      [{ id := 1, subject := "s", action := "Write", path := "/f", user := "self",
         create_by := "c", create_time := "t", decision := "Allow" },
       { id := 2, subject := "s", action := "Read", path := "/g", user := "*",
         create_by := "c", create_time := "t", decision := "Deny" }]
      "s" "self" "/f" .Read :=
  is_authz_db_eq_decide_spec
    [{ id := 1, subject := "s", action := "Write", path := "/f", user := "self",
       create_by := "c", create_time := "t", decision := "Allow" },
     { id := 2, subject := "s", action := "Read", path := "/g", user := "*",
       create_by := "c", create_time := "t", decision := "Deny" }]
    "s" "self" "/f" .Read (by decide)

/-! ## Path invariant (C5), update round-trip (C7), auth gate (C8), delete (C10) -/

/-- Claim C5 (code bug): insert normalizes a submitted path to begin with
`/` (shown here on the slash-less path `foo`), but update by id writes the
submitted path verbatim: updating the record with id 1 to path `foo`
persists `foo`, and the resulting store violates the leading-slash
invariant. -/
theorem update_acl_stores_path_without_slash :
    path_invariant (save_acl [] 1 "t" "s" .Write "foo" "self" .Allow "c")
    ∧ (update_acl_in_db_by_id
        [{ id := 1, subject := "s", action := "Write", path := "/old", user := "self",
           create_by := "c", create_time := "t", decision := "Allow" }]
        1
        { subject := "s", action := .Write, decision := .Allow, path := "foo",
          user := "self" }
        "admin").2 =
      [{ id := 1, subject := "s", action := "Write", path := "foo", user := "self",
         create_by := "admin", create_time := "t", decision := "Allow" }]
    ∧ ¬ path_invariant (update_acl_in_db_by_id
        [{ id := 1, subject := "s", action := "Write", path := "/old", user := "self",
           create_by := "c", create_time := "t", decision := "Allow" }]
        1
        { subject := "s", action := .Write, decision := .Allow, path := "foo",
          user := "self" }
        "admin").2 := by
  refine ⟨by decide, by decide, by decide⟩

theorem find?_map_of_id_preserving (f : DbAcl → DbAcl) (p : DbAcl → Bool)
    (db : List DbAcl) (r : DbAcl)
    (hp : ∀ x, p (f x) = p x) (hr : db.find? p = some r) :
    (db.map f).find? p = some (f r) := by
  induction db with
  | nil => simp at hr
  | cons x rest ih =>
    by_cases hx : p x = true
    · rw [List.find?_cons_of_pos _ hx] at hr
      injection hr with h
      subst h
      rw [List.map_cons, List.find?_cons_of_pos _ (by rw [hp]; exact hx)]
    · rw [List.find?_cons_of_neg _ hx] at hr
      rw [List.map_cons, List.find?_cons_of_neg _ (by rw [hp]; exact hx)]
      exact ih hr

/-- Claim C7: updating an existing record by id replaces subject, user,
action, path and decision with the supplied values and sets `create_by` to
the mutating caller's subject, while `id` and `create_time` are unchanged;
and the handler performs exactly this store update with the verified
caller's subject, answering a success envelope. -/
theorem update_then_get_reflects_new_fields (db : List DbAcl) (acl_id : Int)
    (na : NewAclJson) (subj : String) (r : DbAcl)
    (hr : retrieve_acl_by_id db acl_id = some r) :
    retrieve_acl_by_id (update_acl_in_db_by_id db acl_id na subj).2 acl_id =
      some { id := r.id, subject := na.subject, action := na.action.to_string,
             path := na.path, user := na.user, create_by := subj,
             create_time := r.create_time, decision := na.decision.to_string }
    ∧ (∀ (K : Type) (verify_token : K → String → Except String (Option String))
        (req : HttpRequest) (pub_key : K) (version : String),
      get_subject_of_request_pk verify_token req pub_key = .ok subj →
      update_acl_by_id verify_token req pub_key version db acl_id na =
        (.ok { status := "success", message := "ACL updated successfully.",
               result := "none", version := version },
         (update_acl_in_db_by_id db acl_id na subj).2)) := by
  constructor
  · have hr' : List.find? (fun x => x.id == acl_id) db = some r := hr
    have hrid : (r.id == acl_id) = true := by
      have h2 := List.find?_some hr'
      simpa using h2
    have hmap := find?_map_of_id_preserving
      (fun x => if x.id == acl_id then
        { x with action := na.action.to_string, subject := na.subject,
                 path := na.path, user := na.user,
                 decision := na.decision.to_string, create_by := subj }
        else x)
      (fun x => x.id == acl_id) db r
      (fun x => by by_cases h : (x.id == acl_id) = true <;> simp [h])
      hr
    unfold retrieve_acl_by_id update_acl_in_db_by_id
    rw [hmap]
    simp [hrid]
  · intro K verify_token req pub_key version hauth
    unfold update_acl_by_id
    rw [hauth]

/-- Witness for C7 at a concrete one-row store. -/
theorem update_then_get_reflects_new_fields_witness :
    retrieve_acl_by_id
      (update_acl_in_db_by_id
        [{ id := 1, subject := "s", action := "Write", path := "/old", user := "self",
           create_by := "c", create_time := "t", decision := "Allow" }]
        1
        { subject := "s2", action := .Read, decision := .Deny, path := "/new",
          user := "u2" }
        "admin").2 1 =
      some { id := 1, subject := "s2", action := "Read", path := "/new", user := "u2",
             create_by := "admin", create_time := "t", decision := "Deny" } :=
  (update_then_get_reflects_new_fields
    [{ id := 1, subject := "s", action := "Write", path := "/old", user := "self",
       create_by := "c", create_time := "t", decision := "Allow" }]
    1
    { subject := "s2", action := .Read, decision := .Deny, path := "/new",
      user := "u2" }
    "admin"
    { id := 1, subject := "s", action := "Write", path := "/old", user := "self",
      create_by := "c", create_time := "t", decision := "Allow" }
    (by decide)).1

/-- Supporting fact for the token verifier and the ACL handlers: a request
without the `x-tapis-token` header is rejected by identity extraction with
the missing-token error, in all variants of the extractor and for every
verifier; the handlers that do call the extractor answer the error
(mapped to the `status = "error"` envelope) with the store untouched.
The file-contents routes, however, never call the extractor at all — see
the C8 theorem below. -/
theorem missing_token_rejected (req : HttpRequest)
    (hh : get_header_value req "x-tapis-token" = none) :
    (∀ (K : Type) (from_pem : String → Except String K)
        (verify_token : K → String → Except String (Option String)) (pub_key : String),
      get_sub from_pem verify_token req pub_key = .error "no tapis token header found")
    ∧ (∀ (K : Type) (fetch_publickey : String → Except String String)
        (from_pem : String → Except String K)
        (verify_token : K → String → Except String (Option String))
        (base_url tenant_id : String),
      get_subject_of_request fetch_publickey from_pem verify_token req base_url tenant_id =
        .error "no tapis token header found")
    ∧ (∀ (K : Type) (verify_token : K → String → Except String (Option String))
        (pub_key : K) (version : String) (db : List DbAcl) (acl_id : Int),
      delete_acl_by_id verify_token req pub_key version db acl_id =
        (.error (TagentError.new_with_version "no tapis token header found"), db))
    ∧ (∀ (K : Type) (verify_token : K → String → Except String (Option String))
        (pub_key : K) (version : String) (db : List DbAcl) (acl_id : Int)
        (na : NewAclJson),
      update_acl_by_id verify_token req pub_key version db acl_id na =
        (.error (TagentError.new_with_version "no tapis token header found"), db))
    ∧ (TagentError.new_with_version "no tapis token header found").error_response.status =
        "error" := by
  refine ⟨?_, ?_, ?_, ?_, rfl⟩
  · intro K from_pem verify_token pub_key
    unfold get_sub
    rw [hh]
  · intro K fetch_publickey from_pem verify_token base_url tenant_id
    unfold get_subject_of_request
    rw [hh]
  · intro K verify_token pub_key version db acl_id
    unfold delete_acl_by_id get_subject_of_request_pk
    rw [hh]
  · intro K verify_token pub_key version db acl_id na
    unfold update_acl_by_id get_subject_of_request_pk
    rw [hh]

/-- The supporting fact applied to the request with no headers at all. -/
theorem missing_token_rejected_witness :
    get_sub (fun _ => Except.error "bad pem") (fun (_ : Unit) _ => Except.ok none)
      { headers := [] } "pk" = .error "no tapis token header found" :=
  (missing_token_rejected { headers := [] } rfl).1 Unit
    (fun _ => Except.error "bad pem") (fun _ _ => Except.ok none) "pk"

/-- Claim C8 (code bug): the file-contents routes are not guarded by
identity extraction.  `get_file_contents_path` never reads the request
(its answer is the same for every header map), and
`post_file_contents_path` does not even receive the request; so a request
without the `x-tapis-token` header — whose header lookup is `none` —
still performs the file operation and receives a success response (the
streamed file for GET, the `status = "success"` envelope for POST)
instead of failing identity extraction with the error envelope. -/
theorem tokenless_file_contents_request_performs_file_operation :
    get_header_value { headers := [] } "x-tapis-token" = none
    ∧ (∀ (fs : FileSystem) (req₁ req₂ : HttpRequest) (version root_dir path : String),
        get_file_contents_path fs req₁ version root_dir path =
          get_file_contents_path fs req₂ version root_dir path)
    ∧ get_file_contents_path
        { exists_at := fun _ => true, is_dir := fun _ => false,
          read := fun _ => some "file-bytes", save := fun _ => none }
        { headers := [] } "0.1.0" "/root" "exam2" = .ok "file-bytes"
    ∧ post_file_contents_path
        { exists_at := fun _ => true, is_dir := fun _ => true,
          read := fun _ => none, save := fun _ => some "/root/d/up.bin" }
        "0.1.0" "/root" "d" =
        .ok { status := "success",
              message := "file uploaded to /root/d/up.bin successfully.",
              result := "none", version := "0.1.0" } :=
  ⟨rfl, fun _ _ _ _ _ _ => rfl, by decide, by decide⟩

/-- Claim C10: deleting by an id not present in the store affects zero rows
and is still reported as success: the store-level delete returns count 0
and an unchanged table, and the handler (with a verified caller) answers
the `status = "success"` envelope while the store is unchanged. -/
theorem delete_missing_id_reports_success (db : List DbAcl) (acl_id : Int)
    (hnone : ∀ r ∈ db, (r.id == acl_id) = false) :
    delete_acl_from_db_by_id db acl_id = (0, db)
    ∧ (∀ (K : Type) (verify_token : K → String → Except String (Option String))
        (req : HttpRequest) (pub_key : K) (version : String) (subj : String),
      get_subject_of_request_pk verify_token req pub_key = .ok subj →
      delete_acl_by_id verify_token req pub_key version db acl_id =
        (.ok { status := "success", message := "ACL deleted successfully.",
               result := "none", version := version }, db)) := by
  have hcount : db.countP (fun r => r.id == acl_id) = 0 := by
    rw [List.countP_eq_zero]
    intro a ha
    simp [hnone a ha]
  have hfilter : db.filter (fun r => !(r.id == acl_id)) = db := by
    rw [List.filter_eq_self]
    intro a ha
    simp [hnone a ha]
  constructor
  · unfold delete_acl_from_db_by_id
    rw [hcount, hfilter]
  · intro K verify_token req pub_key version subj hauth
    unfold delete_acl_by_id
    rw [hauth]
    unfold delete_acl_from_db_by_id
    rw [hfilter]

/-- Witness for C10: deleting id 2 from a store holding only id 1. -/
theorem delete_missing_id_reports_success_witness :
    delete_acl_from_db_by_id
      [{ id := 1, subject := "s", action := "Write", path := "/f", user := "self",
         create_by := "c", create_time := "t", decision := "Allow" }] 2 =
      (0, [{ id := 1, subject := "s", action := "Write", path := "/f", user := "self",
             create_by := "c", create_time := "t", decision := "Allow" }]) :=
  (delete_missing_id_reports_success
    [{ id := 1, subject := "s", action := "Write", path := "/f", user := "self",
       create_by := "c", create_time := "t", decision := "Allow" }] 2 (by decide)).1

end Tagent
